import Mathlib

/-!
# Verification of the verificacion-correo core against its specification

This file gives a shallow embedding, in Lean 4, of the core components of the
verificacion-correo repository:

* the contact validity rule and outcome classification of
  `core/browser.py` (`BrowserAutomation._is_valid_contact`,
  `BrowserAutomation._process_single_email`, `BrowserAutomation._process_batch`,
  `BrowserAutomation.process_emails`);
* the text-based contact extraction engine of `core/extractor.py`
  (`ContactExtractor.extract_from_popup` and its helpers);
* the spreadsheet reader and writer of `core/excel.py`
  (`ExcelReader.read_pending_emails`, `ExcelWriter.write_result`,
  `ExcelWriter.write_batch_results`);
* the behaviour-simulation layer of `core/antidetection/`
  (`DelayManager.get_delay`, `TypingSimulator._get_char_delay`,
  `MouseEmulator._bezier_curve`);
* the legacy per-record batch driver `browser_automation.procesar_lote`.

Conventions of the embedding:

* Python strings are Lean `String`s; helper functions reproduce Python string
  semantics (`strip`, truthiness, `in`, `isupper`) on `List Char`, restricted
  to ASCII plus the Spanish accented letters that the source's own regular
  expressions enumerate.
* Python `None` becomes `Option.none`; a nullable string field is
  `Option String`.
* Python floats are modelled as exact rationals (`ℚ`); the numeric claims
  settled here concern exact multiplicative factors and endpoint equalities,
  which hold of the source expressions independently of rounding.
* Randomness is made explicit: every `random.*` draw of the source becomes a
  parameter of the Lean function, so each function is a deterministic function
  of its configuration, state and drawn values.
* Python exceptions become explicit `Except`/`Option` values; a `try/except`
  block becomes a `match` on the outcome of its body.
-/

/-! ## Python string semantics helpers -/

/-- Python truthiness of an optional string: `None` and `""` are falsy,
every other string (including whitespace-only ones) is truthy. -/
def pyTruthy : Option String → Bool
  | none => false
  | some s => !(s == "")

/-- Default whitespace for Python `str.strip()` and the regex class `\s`
(space, tab, newline, carriage return, form feed, vertical tab). -/
def isSpaceChar (c : Char) : Bool :=
  c == ' ' || c == '\t' || c == '\n' || c == '\r' || c == '\x0c' || c == '\x0b'

/-- Drop leading and trailing whitespace from a character list. -/
def stripChars (l : List Char) : List Char :=
  ((l.dropWhile isSpaceChar).reverse.dropWhile isSpaceChar).reverse

/-- Python `str.strip()`. -/
def pyStrip (s : String) : String :=
  ⟨stripChars s.data⟩

/-- Python `x and x.strip()` on an optional string field: the field is
non-`None`, non-empty, and its stripped form is non-empty. -/
def strippedTruthy : Option String → Bool
  | none => false
  | some s => !(s == "") && !(pyStrip s == "")

/-- Python `c in s` for a single character. -/
def containsChar (s : String) (c : Char) : Bool :=
  s.data.contains c

/-- Python `needle in haystack` on character lists (substring check). -/
def containsSub (needle haystack : List Char) : Bool :=
  match haystack with
  | [] => needle == []
  | _ :: rest => needle.isPrefixOf haystack || containsSub needle rest

/-- Python `needle in haystack` substring test on strings. -/
def pyContains (haystack needle : String) : Bool :=
  containsSub needle.data haystack.data

/-- Spanish accented letters appearing in the source's regex classes,
uppercase forms. -/
def accentUpper : List Char := ['Á', 'É', 'Í', 'Ó', 'Ú', 'Ñ', 'Ü']

/-- Spanish accented letters appearing in the source's regex classes,
lowercase forms. -/
def accentLower : List Char := ['á', 'é', 'í', 'ó', 'ú', 'ñ', 'ü']

/-- A cased character of the alphabet the source works over:
ASCII letters plus the Spanish accented letters. -/
def isCasedChar (c : Char) : Bool :=
  c.isAlpha || accentUpper.contains c || accentLower.contains c

/-- A lowercase cased character in the same restricted alphabet. -/
def isLowerCased (c : Char) : Bool :=
  (c.isAlpha && c.isLower) || accentLower.contains c

/-- Python `str.isupper()`: at least one cased character, and no cased
character is lowercase (restricted to the alphabet above). -/
def pyIsUpper (s : String) : Bool :=
  s.data.any isCasedChar && !(s.data.any isLowerCased)

/-- Python `text.split('\n')` on character lists. -/
def splitOnNewline : List Char → List (List Char)
  | [] => [[]]
  | c :: rest =>
    let tail := splitOnNewline rest
    if c == '\n' then [] :: tail
    else
      match tail with
      | [] => [[c]]
      | first :: others => (c :: first) :: others

/-- Python `text.split('\n')` on strings, yielding the list of lines. -/
def pyLines (s : String) : List String :=
  (splitOnNewline s.data).map (fun l => ⟨l⟩)

/-! ## Data model: `ContactInfo` and `ProcessingStatus`

From `core/extractor.py` (`ContactInfo` dataclass) and `core/excel.py`
(`ProcessingStatus` enum). -/

/-- The `ContactInfo` dataclass of `core/extractor.py`: eight optional
string fields. -/
structure ContactInfo where
  name : Option String := none
  email : Option String := none
  phone : Option String := none
  sip : Option String := none
  address : Option String := none
  department : Option String := none
  company : Option String := none
  office_location : Option String := none
deriving DecidableEq, Repr

/-- `ContactInfo.is_valid` of `core/extractor.py`:
`bool(self.email or self.phone)`. -/
def ContactInfo.is_valid (ci : ContactInfo) : Bool :=
  pyTruthy ci.email || pyTruthy ci.phone

/-- The `ProcessingStatus` enum of `core/excel.py`. -/
inductive ProcessingStatus where
  | PENDING
  | SUCCESS
  | NOT_FOUND
  | ERROR
deriving DecidableEq, Repr

/-- The literal spreadsheet token of each status
(`ProcessingStatus.value` in `core/excel.py`). -/
def ProcessingStatus.value : ProcessingStatus → String
  | .PENDING => ""
  | .SUCCESS => "OK"
  | .NOT_FOUND => "NO EXISTE"
  | .ERROR => "ERROR"

/-! ## Generic-token email pattern

`re.match(r'^(ASP|AGM|AEM|ADM)\d+@', email, re.I)` as used in
`core/browser.py` (`_is_valid_contact`) and `core/extractor.py`
(`_extract_specific_email`, `_extract_personal_email`). -/

/-- After the three-letter prefix: one or more ASCII digits followed by `@`.
The head character must be a digit; then digits continue until an `@`. -/
def digitsThenAt : List Char → Bool
  | [] => false
  | c :: rest =>
    if c == '@' then true
    else c.isDigit && digitsThenAt rest

/-- `re.match(r'^(ASP|AGM|AEM|ADM)\d+@', s, re.I)` succeeds: the string starts
(case-insensitively) with one of the four generic prefixes, followed by at
least one digit and then `@`. -/
def matchesGenericToken (s : String) : Bool :=
  match s.data with
  | c1 :: c2 :: c3 :: c4 :: rest =>
    let p := [c1.toUpper, c2.toUpper, c3.toUpper]
    (p == ['A', 'S', 'P'] || p == ['A', 'G', 'M'] ||
     p == ['A', 'E', 'M'] || p == ['A', 'D', 'M']) &&
    c4.isDigit && digitsThenAt (c4 :: rest)
  | _ => false

/-! ## The orchestrator's validity rule and classification

`BrowserAutomation._is_valid_contact` and the classification step of
`BrowserAutomation._process_single_email` in `core/browser.py`. -/

/-- `any([...])` over the eight fields of the contact
(the `has_any_data` check at the end of `_is_valid_contact`). -/
def hasAnyData (ci : ContactInfo) : Bool :=
  pyTruthy ci.name || pyTruthy ci.email || pyTruthy ci.phone ||
  pyTruthy ci.sip || pyTruthy ci.address || pyTruthy ci.department ||
  pyTruthy ci.company || pyTruthy ci.office_location

/-- `BrowserAutomation._is_valid_contact` of `core/browser.py`, applied to a
(non-`None`) `ContactInfo`: the cascade of validations ending in the
`has_any_data` catch-all. -/
def isValidContact (ci : ContactInfo) : Bool :=
  if strippedTruthy ci.sip then true
  else if (match ci.email with
           | none => false
           | some e => !(e == "") && !(pyStrip e == "") && !(matchesGenericToken e)) then true
  else if strippedTruthy ci.phone then true
  else if strippedTruthy ci.name && pyTruthy ci.email && !(pyStrip (ci.email.getD "") == "") then true
  else if strippedTruthy ci.address then true
  else if strippedTruthy ci.department then true
  else hasAnyData ci

/-- The classification step of `_process_single_email`:
`if contact_info and self._is_valid_contact(contact_info)` then SUCCESS else
NOT_FOUND (reached only when the token was found and no exception occurred). -/
def classifyContact : Option ContactInfo → ProcessingStatus
  | none => .NOT_FOUND
  | some ci => if isValidContact ci then .SUCCESS else .NOT_FOUND

/-- Modelled from the spec: the validity rule as §4.1 states it — SUCCESS iff
any of {SIP present; email present AND not matching the generic-token pattern;
phone present; name present AND any email present; address present;
department present}. Stated for comparison with `isValidContact`. -/
def specValidityRule (ci : ContactInfo) : Bool :=
  pyTruthy ci.sip ||
  (pyTruthy ci.email && !(matchesGenericToken (ci.email.getD ""))) ||
  pyTruthy ci.phone ||
  (pyTruthy ci.name && pyTruthy ci.email) ||
  pyTruthy ci.address ||
  pyTruthy ci.department

/-- A contact whose extracted data is solely the generic-token email of the
spec's own example. -/
def genericOnlyContact : ContactInfo :=
  { email := some "ASP164@MADRID.ORG" }

/-! ## Text-based contact extraction (`core/extractor.py`)

The extraction helpers below embed `ContactExtractor._extract_text_based` and
its sub-helpers. Each regular expression of `core/config.py` is implemented as
a dedicated scanner with the same matching semantics (leftmost match, greedy
quantifiers); the character class `\w` is modelled as ASCII alphanumerics,
underscore, and the Spanish accented letters the source's own classes
enumerate. -/

/-- Lowercasing that also maps the Spanish accented uppercase letters, as
Python's case-insensitive matching does. -/
def charLowerExt (c : Char) : Char :=
  if c == 'Á' then 'á' else if c == 'É' then 'é' else if c == 'Í' then 'í'
  else if c == 'Ó' then 'ó' else if c == 'Ú' then 'ú' else if c == 'Ñ' then 'ñ'
  else if c == 'Ü' then 'ü' else c.toLower

/-- Python `str.lower()` over the restricted alphabet. -/
def pyLower (s : String) : String :=
  ⟨s.data.map charLowerExt⟩

/-- The regex class `\w` (restricted to the working alphabet). -/
def isWordChar (c : Char) : Bool :=
  c.isAlphanum || c == '_' || accentUpper.contains c || accentLower.contains c

/-- The class `[\w.+-]` (local part of `EMAIL` and `SIP`). -/
def isEmailLocalChar (c : Char) : Bool :=
  isWordChar c || c == '.' || c == '+' || c == '-'

/-- The class `[\w.-]` (domain part of `EMAIL` and `SIP`). -/
def isDomainChar (c : Char) : Bool :=
  isWordChar c || c == '.' || c == '-'

/-- Match `\.[a-z]{2,}` (case-insensitive) at the head of the list, greedily;
returns the number of characters consumed. -/
def matchDotAlpha : List Char → Option Nat
  | c :: rest =>
    if c == '.' then
      let letters := rest.takeWhile (fun d => d.isAlpha)
      if 2 ≤ letters.length then some (1 + letters.length) else none
    else none
  | [] => none

/-- Match `[\w.-]+\.[a-z]{2,}` at the head of the list with greedy
backtracking: the `[\w.-]+` run is extended as far as possible such that a
final `\.[a-z]{2,}` still matches. Returns the number of characters
consumed. -/
def matchDomainTail : List Char → Option Nat
  | [] => none
  | c :: rest =>
    if isDomainChar c then
      match matchDomainTail rest with
      | some n => some (n + 1)
      | none => (matchDotAlpha rest).map (· + 1)
    else none

/-- Match the `EMAIL` regex `[\w.+-]+@[\w.-]+\.[a-z]{2,}` of `core/config.py`
at the head of the list; returns the length of the match. `@` is not a
local-part character, so the greedy `[\w.+-]+` run is exactly the maximal
run. -/
def matchEmailAt (l : List Char) : Option Nat :=
  let locals := l.takeWhile isEmailLocalChar
  if locals.length == 0 then none
  else
    match l.drop locals.length with
    | '@' :: rest => (matchDomainTail rest).map (fun n => locals.length + 1 + n)
    | _ => none

/-- The scan of `EMAIL.findall(text)`, written with explicit fuel so that it
is structurally recursive (each step consumes at least one character, so fuel
equal to the text length never runs out). A successful match consumes at
least three characters, so resuming at `rest.drop (n - 1)` is resuming right
after the match. -/
def emailFindallGo : Nat → List Char → List String
  | 0, _ => []
  | _, [] => []
  | fuel + 1, c :: rest =>
    match matchEmailAt (c :: rest) with
    | some n => (⟨(c :: rest).take n⟩ : String) :: emailFindallGo fuel (rest.drop (n - 1))
    | none => emailFindallGo fuel rest

/-- `EMAIL.findall(text)`: non-overlapping leftmost matches, scanning left to
right and resuming after each match. -/
def emailFindall (l : List Char) : List String :=
  emailFindallGo l.length l

/-- `ContactExtractor._extract_specific_email`: first email not matching the
generic-token pattern, else the first email found, stripped; `None` when no
email-shaped token exists. -/
def extract_specific_email (text : String) : Option String :=
  let all := emailFindall text.data
  match all.find? (fun e => !(matchesGenericToken e)) with
  | some e => some (pyStrip e)
  | none =>
    match all with
    | [] => none
    | e :: _ => some (pyStrip e)

/-! ### Name extraction (`_extract_name` and the `NAME` regex) -/

/-- The six accented uppercase letters of the `NAME` classes
(`[A-ZÁÉÍÓÚÑ]` has no `Ü`). -/
def nameAccentUpper : List Char := ['Á', 'É', 'Í', 'Ó', 'Ú', 'Ñ']

/-- The matching lowercase accented letters. -/
def nameAccentLower : List Char := ['á', 'é', 'í', 'ó', 'ú', 'ñ']

/-- The class `[A-ZÁÉÍÓÚÑ]` (case-sensitive, as `NAME` is compiled without
flags). -/
def isNameUpper (c : Char) : Bool :=
  (c.isAlpha && c.isUpper) || nameAccentUpper.contains c

/-- The class `[A-Za-zÁÉÍÓÚÑáéíóúñ\-\.\s]` (first half of `NAME`). -/
def isNameMidDot (c : Char) : Bool :=
  c.isAlpha || nameAccentUpper.contains c || nameAccentLower.contains c ||
  c == '-' || c == '.' || isSpaceChar c

/-- The class `[A-Za-zÁÉÍÓÚÑáéíóúñ\-\s]` (second half of `NAME`, no dot). -/
def isNameMid (c : Char) : Bool :=
  c.isAlpha || nameAccentUpper.contains c || nameAccentLower.contains c ||
  c == '-' || isSpaceChar c

/-- Match the `NAME` regex
`([A-ZÁÉÍÓÚÑ][A-Za-zÁÉÍÓÚÑáéíóúñ\-\.\s]+,\s*[A-ZÁÉÍÓÚÑ][A-Za-zÁÉÍÓÚÑáéíóúñ\-\s]+)`
at the head of the list; returns the length of the match. The comma is in
neither inner class, so the greedy runs are the maximal runs. -/
def matchNameAt (l : List Char) : Option Nat :=
  match l with
  | [] => none
  | c :: rest =>
    if isNameUpper c then
      let m1 := rest.takeWhile isNameMidDot
      if 1 ≤ m1.length then
        match rest.drop m1.length with
        | ',' :: rest2 =>
          let ws := rest2.takeWhile isSpaceChar
          match rest2.drop ws.length with
          | c2 :: rest3 =>
            if isNameUpper c2 then
              let m2 := rest3.takeWhile isNameMid
              if 1 ≤ m2.length then
                some (1 + m1.length + 1 + ws.length + 1 + m2.length)
              else none
            else none
          | [] => none
        | _ => none
      else none
    else none

/-- `NAME.search(line)`: leftmost match; returns the matched text
(group 1 is the whole pattern). -/
def searchNameIn : List Char → Option String
  | [] => none
  | c :: rest =>
    match matchNameAt (c :: rest) with
    | some n => some ⟨(c :: rest).take n⟩
    | none => searchNameIn rest

/-- The class `[A-ZÁÉÍÓÚÑ\s]` under `re.I` (used by the name heuristic):
any ASCII letter, any of the six accented letters in either case, or
whitespace. -/
def isHeurNameChar (c : Char) : Bool :=
  c.isAlpha || nameAccentUpper.contains c || nameAccentLower.contains c ||
  isSpaceChar c

/-- `re.match(r'^[A-ZÁÉÍÓÚÑ\s]+,\s*[A-ZÁÉÍÓÚÑ\s]+$', line, re.I)` succeeds:
a maximal run of the class, a comma, then a non-empty remainder entirely in
the class (the class contains `\s`, so `\s*` is absorbed by it). -/
def nameHeuristicMatch (l : List Char) : Bool :=
  let run := l.takeWhile isHeurNameChar
  1 ≤ run.length &&
  (match l.drop run.length with
   | ',' :: rest => !(rest == []) && rest.all isHeurNameChar
   | _ => false)

/-- `ContactExtractor._extract_name`: the `NAME` regex over every line, then
the heuristic over the first 10 lines (stripped, containing a comma, longer
than 5, not a generic heading, not starting with the street marker, matching
the anchored case-insensitive pattern). -/
def extract_name (text : String) : Option String :=
  let lines := pyLines text
  match lines.findSome? (fun ln => searchNameIn ln.data) with
  | some m => some (pyStrip m)
  | none =>
    (lines.take 10).findSome? (fun ln =>
      let l := pyStrip ln
      if containsChar l ',' && 5 < l.length &&
         !(l == "CONTACTO") && !(l == "NOTAS") && !(l == "ORGANIZACIÓN") &&
         !(match l.data with | 'C' :: '/' :: _ => true | _ => false) &&
         nameHeuristicMatch l.data
      then some l else none)

/-! ### Phone extraction (`_extract_phone`) -/

/-- `re.search(r'\b\d{9}\b', line)` matches at this position: a word boundary
before (tracked through the previous character), nine ASCII digits, and a
word boundary after. -/
def nineDigitsHere (prev : Option Char) (l : List Char) : Bool :=
  (match prev with | none => true | some p => !(isWordChar p)) &&
  (l.take 9).length == 9 && (l.take 9).all Char.isDigit &&
  (match l.drop 9 with | [] => true | c :: _ => !(isWordChar c))

/-- Leftmost `\b\d{9}\b` match in a line; returns the nine digits. -/
def searchNineDigits (prev : Option Char) : List Char → Option String
  | [] => none
  | c :: rest =>
    if nineDigitsHere prev (c :: rest) then some ⟨(c :: rest).take 9⟩
    else searchNineDigits (some c) rest

/-- `re.search(r'\b\d{6,8}\b', line)` matches at this position: boundary
before, a maximal digit run of length 6 to 8, boundary after. -/
def sixToEightHere (prev : Option Char) (l : List Char) : Option String :=
  if (match prev with | none => true | some p => !(isWordChar p)) then
    let run := l.takeWhile Char.isDigit
    if 6 ≤ run.length && run.length ≤ 8 &&
       (match l.drop run.length with | [] => true | c :: _ => !(isWordChar c))
    then some ⟨run⟩ else none
  else none

/-- Leftmost `\b\d{6,8}\b` match in a line. -/
def searchSixToEight (prev : Option Char) : List Char → Option String
  | [] => none
  | c :: rest =>
    match sixToEightHere prev (c :: rest) with
    | some m => some m
    | none => searchSixToEight (some c) rest

/-- `re.search(r'\d{5}\s+[A-Z]', line)` matches at this position: five
digits, at least one whitespace character, then an ASCII uppercase letter
right after the whitespace run. -/
def postalCityHere (l : List Char) : Bool :=
  let ds := l.take 5
  ds.length == 5 && ds.all Char.isDigit &&
  (let rest := l.drop 5
   let ws := rest.takeWhile isSpaceChar
   1 ≤ ws.length &&
   (match rest.drop ws.length with
    | c :: _ => c.isAlpha && c.isUpper
    | [] => false))

/-- `re.search(r'\d{5}\s+[A-Z]', line)` succeeds somewhere in the line. -/
def hasPostalCity : List Char → Bool
  | [] => false
  | c :: rest => postalCityHere (c :: rest) || hasPostalCity rest

/-- `ContactExtractor._extract_phone`: prefer a nine-digit run on a line
without `sip:`; else, when the text mentions `Trabajo`, a 6-8 digit run on a
line without `sip:` and without a postcode-plus-city pattern. -/
def extract_phone (text : String) : Option String :=
  let lines := pyLines text
  match lines.findSome? (fun ln =>
      if pyContains (pyLower ln) "sip:" then none
      else searchNineDigits none ln.data) with
  | some p => some p
  | none =>
    if pyContains text "Trabajo" then
      lines.findSome? (fun ln =>
        if !(pyContains (pyLower ln) "sip:") && !(hasPostalCity ln.data) then
          searchSixToEight none ln.data
        else none)
    else none

/-! ### SIP extraction (`_extract_sip`) -/

/-- Match the `SIP` regex `sip:[\w.+-]+@[\w.-]+` (re.I) at the head of the
list; returns the matched characters. -/
def matchSipAt (l : List Char) : Option (List Char) :=
  match l with
  | a :: b :: c :: d :: rest =>
    if a.toLower == 's' && b.toLower == 'i' && c.toLower == 'p' && d == ':' then
      let locals := rest.takeWhile isEmailLocalChar
      if 1 ≤ locals.length then
        match rest.drop locals.length with
        | '@' :: rest2 =>
          let dom := rest2.takeWhile isDomainChar
          if 1 ≤ dom.length then
            some ([a, b, c, d] ++ locals ++ '@' :: dom)
          else none
        | _ => none
      else none
    else none
  | _ => none

/-- `SIP.search(text)`: leftmost match. -/
def searchSip : List Char → Option (List Char)
  | [] => none
  | c :: rest =>
    match matchSipAt (c :: rest) with
    | some m => some m
    | none => searchSip rest

/-- The anchored validation
`re.match(r'^sip:[\w.+-]+@[\w.-]+\.[a-z]{2,}$', sip, re.I)`: after the `@`,
the domain must consist of `[\w.-]` characters, contain a dot, and the part
after its last dot must be at least two ASCII letters with a non-empty
domain part before that dot. -/
def sipValidate (l : List Char) : Bool :=
  match l with
  | a :: b :: c :: d :: rest =>
    (a.toLower == 's' && b.toLower == 'i' && c.toLower == 'p' && d == ':') &&
    (let locals := rest.takeWhile isEmailLocalChar
     1 ≤ locals.length &&
     (match rest.drop locals.length with
      | '@' :: tail =>
        let revTail := tail.reverse
        let revSuffix := revTail.takeWhile (fun x => x != '.')
        (match revTail.drop revSuffix.length with
         | '.' :: revPre =>
           2 ≤ revSuffix.length && revSuffix.all (fun x => x.isAlpha) &&
           !(revPre == []) && revPre.all isDomainChar
         | _ => false)
      | _ => false))
  | _ => false

/-- `ContactExtractor._extract_sip`: search, strip, then validate. -/
def extract_sip (text : String) : Option String :=
  match searchSip text.data with
  | some m =>
    let sip := pyStrip ⟨m⟩
    if sipValidate sip.data then some sip else none
  | none => none

/-! ### Address extraction (`_extract_address`) -/

/-- The class `[A-ZÁÉÍÓÚÑ\s,]` under `re.I`: letters (either case), comma,
whitespace. -/
def isAddrStreetChar (c : Char) : Bool :=
  c.isAlpha || nameAccentUpper.contains c || nameAccentLower.contains c ||
  c == ',' || isSpaceChar c

/-- The class `[A-ZÁÉÍÓÚÑ\-\s]` under `re.I`: letters (either case), hyphen,
whitespace (the city part of both address patterns). -/
def isCityChar (c : Char) : Bool :=
  c.isAlpha || nameAccentUpper.contains c || nameAccentLower.contains c ||
  c == '-' || isSpaceChar c

/-- Match the street-address regex
`C/\s*[A-ZÁÉÍÓÚÑ\s,]+\d+\s+\d{5}\s+[A-ZÁÉÍÓÚÑ\-\s]+` (re.I) at the head of
the list; returns the length of the match. The street class contains `\s`,
so `\s*` is absorbed into the street run; the two digit groups are forced by
the surrounding whitespace requirements; the final `\s+` and city-class run
combine as: one whitespace character, then at least one more class character
(the class again contains `\s`). -/
def matchStreetAddrAt (l : List Char) : Option Nat :=
  match l with
  | a :: b :: rest =>
    if a.toLower == 'c' && b == '/' then
      let street := rest.takeWhile isAddrStreetChar
      if 1 ≤ street.length then
        let r1 := rest.drop street.length
        let digits1 := r1.takeWhile Char.isDigit
        if 1 ≤ digits1.length then
          let r2 := r1.drop digits1.length
          let ws1 := r2.takeWhile isSpaceChar
          if 1 ≤ ws1.length then
            let r3 := r2.drop ws1.length
            let digits2 := r3.takeWhile Char.isDigit
            if digits2.length == 5 then
              let r4 := r3.drop digits2.length
              let ws2 := r4.takeWhile isSpaceChar
              let city := (r4.drop ws2.length).takeWhile isCityChar
              if 1 ≤ ws2.length && 2 ≤ ws2.length + city.length then
                some (2 + street.length + digits1.length + ws1.length +
                      5 + ws2.length + city.length)
              else none
            else none
          else none
        else none
      else none
    else none
  | _ => none

/-- Leftmost match of the street-address regex over the whole text. -/
def searchStreetAddr : List Char → Option String
  | [] => none
  | c :: rest =>
    match matchStreetAddrAt (c :: rest) with
    | some n => some ⟨(c :: rest).take n⟩
    | none => searchStreetAddr rest

/-- Match the `POSTAL_ADDR` regex `\d{5}\s+[A-ZÁÉÍÓÚÑ\-\s]+` (re.I) at the
head of the list: five digits, then at least one whitespace character and at
least two characters total in the combined whitespace/city runs. -/
def matchPostalAt (l : List Char) : Option Nat :=
  let ds := l.take 5
  if ds.length == 5 && ds.all Char.isDigit then
    let rest := l.drop 5
    let ws := rest.takeWhile isSpaceChar
    let city := (rest.drop ws.length).takeWhile isCityChar
    if 1 ≤ ws.length && 2 ≤ ws.length + city.length then
      some (5 + ws.length + city.length)
    else none
  else none

/-- `POSTAL_ADDR.search(text)`: leftmost match. -/
def searchPostal : List Char → Option String
  | [] => none
  | c :: rest =>
    match matchPostalAt (c :: rest) with
    | some n => some ⟨(c :: rest).take n⟩
    | none => searchPostal rest

/-- `ContactExtractor._extract_address`: the Spanish street format first,
else the postcode-plus-city fallback, each stripped. -/
def extract_address (text : String) : Option String :=
  match searchStreetAddr text.data with
  | some m => some (pyStrip m)
  | none =>
    match searchPostal text.data with
    | some m => some (pyStrip m)
    | none => none

/-! ### Work information (`_extract_work_info`) -/

/-- Case-insensitive prefix match of a label against the text at this
position. -/
def ciPrefixMatch : List Char → List Char → Bool
  | [], _ => true
  | _ :: _, [] => false
  | a :: la, b :: lb => charLowerExt a == charLowerExt b && ciPrefixMatch la lb

/-- Match `LABEL\s*([^\n]+)` (re.I) at this position and return group 1.
`\s*` is greedy; when only whitespace follows the label, the group
backtracks to the last non-newline whitespace character (the stripped value
is then empty and rejected by the caller's length check). -/
def labelValueAt (label : List Char) (l : List Char) : Option String :=
  if ciPrefixMatch label l then
    let region := l.drop label.length
    let w := (region.takeWhile isSpaceChar).length
    let after := region.drop w
    match after with
    | _ :: _ => some ⟨after.takeWhile (fun c => c != '\n')⟩
    | [] =>
      match (region.reverse.find? (fun c => c != '\n')) with
      | some c => some ⟨[c]⟩
      | none => none
  else none

/-- `re.search(LABEL + r'\s*([^\n]+)', text, re.I)`: leftmost position where
the whole pattern matches; returns group 1. -/
def searchLabelValue (label : List Char) : List Char → Option String
  | [] => none
  | c :: rest =>
    match labelValueAt label (c :: rest) with
    | some v => some v
    | none => searchLabelValue label rest

/-- The per-field pattern loop of `_extract_work_info`: for each label in
order, search; keep the stripped group when it is non-empty and longer than
two characters, and stop at the first label that yields one. -/
def firstLabelValue (labels : List String) (text : String) : Option String :=
  labels.findSome? (fun lab =>
    match searchLabelValue lab.data text.data with
    | some v =>
      let v := pyStrip v
      if !(v == "") && 2 < v.length then some v else none
    | none => none)

/-- The department labels of `_extract_work_info`. -/
def departmentLabels : List String := ["Departamento:", "Título:", "Puesto:"]

/-- The company labels of `_extract_work_info`. -/
def companyLabels : List String := ["Compañía:", "Empresa:", "Organización:"]

/-- The office labels of `_extract_work_info`. -/
def officeLabels : List String := ["Oficina:", "Ubicación:", "Localización:"]

/-- The all-caps-line heuristic of `_extract_work_info`, used when no
department label matched: the first stripped line that is uppercase, longer
than three characters and not a generic section heading. -/
def departmentHeuristic (text : String) : Option String :=
  (pyLines text).findSome? (fun ln =>
    let l := pyStrip ln
    if !(l == "") && pyIsUpper l && 3 < l.length &&
       !(l == "CONTACTO") && !(l == "NOTAS") && !(l == "ORGANIZACIÓN")
    then some l else none)

/-! ### `_extract_text_based` and `extract_from_popup` -/

/-- `ContactExtractor._extract_text_based`: all field extractors over the
raw popup text, merged into a `ContactInfo`; the result is returned only
when `is_valid` holds (an email or phone was found). -/
def extract_text_based (text : String) : Option ContactInfo :=
  if pyStrip text == "" then none
  else
    let department0 := firstLabelValue departmentLabels text
    let ci : ContactInfo := {
      email := extract_specific_email text
      name := extract_name text
      phone := extract_phone text
      sip := extract_sip text
      address := extract_address text
      department := (match department0 with
        | some d => some d
        | none => departmentHeuristic text)
      company := firstLabelValue companyLabels text
      office_location := firstLabelValue officeLabels text }
    if ci.is_valid then some ci else none

/-- What `extract_from_popup` observes of the browser: whether the popup
became visible, its inner text (empty on a read failure, as
`_get_popup_text` catches and returns `""`), and the outcome of the
DOM-based extraction `_extract_dom_based`, which depends on the live DOM and
is therefore carried as an opaque input of the embedding. -/
structure PopupRead where
  visible : Bool
  text : String
  domResult : Option ContactInfo

/-- `ContactExtractor.extract_from_popup`: `None` when the popup is not
visible; else the DOM result if valid; else the text-based result if valid;
else `None`. -/
def extract_from_popup (p : PopupRead) : Option ContactInfo :=
  if !p.visible then none
  else
    let textResult :=
      match extract_text_based p.text with
      | some ci => if ci.is_valid then some ci else none
      | none => none
    match p.domResult with
    | some ci => if ci.is_valid then some ci else textResult
    | none => textResult

/-- The `try/except` wrapper of `extract_from_popup` (lines 94-120 of
`core/extractor.py`): any exception raised by the body is caught and `None`
is returned. The body's outcome is passed explicitly: in a run without
exceptions it is `Except.ok (extract_from_popup p)`. -/
def extractionEngineResult (body : Except String (Option ContactInfo)) :
    Option ContactInfo :=
  match body with
  | .error _ => none
  | .ok r => r

/-! ## Spreadsheet reading (`ExcelReader.read_pending_emails`) -/

/-- One data row of the source worksheet as the reader sees it: the email
cell and the status cell (both possibly empty). Cell values are modelled as
strings (the `str(...)` conversions of the source make any other cell type a
string before use). -/
structure SheetRow where
  row : Nat
  email : Option String
  status : Option String
deriving DecidableEq, Repr

/-- The `EmailRecord` dataclass of `core/excel.py`. `data` holds the
extracted contact (the source stores `contact_info.to_dict()`, a
field-for-field copy of the `ContactInfo`). -/
structure EmailRecord where
  email : String
  row : Nat
  status : ProcessingStatus := .PENDING
  data : Option ContactInfo := none
deriving DecidableEq, Repr

/-- `if not status or str(status).strip() == ""`: the status cell is `None`,
empty, or whitespace-only. -/
def statusCellEmpty : Option String → Bool
  | none => true
  | some s => s == "" || pyStrip s == ""

/-- The email cell passes the reader's filter: truthy, and its stripped form
is non-empty and contains `@`. -/
def emailCellOk : Option String → Bool
  | none => false
  | some e =>
    !(e == "") &&
    (let t := pyStrip e
     !(t == "") && containsChar t '@')

/-- A row the reader counts as an email at all (`total_emails`). -/
def rowCounted (r : SheetRow) : Bool := emailCellOk r.email

/-- A row the reader treats as pending. -/
def rowPending (r : SheetRow) : Bool :=
  emailCellOk r.email && statusCellEmpty r.status

/-- The reader's row loop, as a left fold over the rows in sheet order,
accumulating `(pending records, total_emails, processed_count)`. -/
def readRowsLoop (rows : List SheetRow) :
    List EmailRecord × Nat × Nat :=
  rows.foldl
    (fun acc r =>
      if emailCellOk r.email then
        if statusCellEmpty r.status then
          (acc.1 ++ [{ email := pyStrip (r.email.getD ""), row := r.row,
                       status := .PENDING }], acc.2.1 + 1, acc.2.2)
        else (acc.1, acc.2.1 + 1, acc.2.2 + 1)
      else acc)
    ([], 0, 0)

/-- The slicing loop of batch splitting, written with explicit fuel so that
it is structurally recursive (each step consumes at least one record, so
fuel equal to the list length never runs out). -/
def makeBatchesGo (bs : Nat) : Nat → List α → List (List α)
  | 0, _ => []
  | _, [] => []
  | fuel + 1, a :: l => (a :: l.take (bs - 1)) :: makeBatchesGo bs fuel (l.drop (bs - 1))

/-- Batch splitting `for i in range(0, len(pending_records), batch_size)`:
consecutive slices of `batch_size` records. Faithful for `1 ≤ batch_size`
(the source validates `batch_size > 0`). -/
def makeBatches (bs : Nat) (l : List α) : List (List α) :=
  makeBatchesGo bs l.length l

/-- The `ExcelSummary` dataclass of `core/excel.py`. -/
structure ExcelSummary where
  total_emails : Nat
  pending_count : Nat
  processed_count : Nat
  batches : List (List EmailRecord)
deriving DecidableEq, Repr

/-- `ExcelReader.read_pending_emails` on an existing workbook: collect the
pending rows in sheet order, then split them into batches. -/
def read_pending_emails (rows : List SheetRow) (batch_size : Nat) :
    ExcelSummary :=
  let (pending, total, processed) := readRowsLoop rows
  { total_emails := total
    pending_count := pending.length
    processed_count := processed
    batches := makeBatches batch_size pending }

/-! ## Spreadsheet writing (`ExcelWriter`) -/

/-- A worksheet as a map from (row, column) to an optional cell value
(`None` is an empty cell). -/
def Worksheet : Type := Nat → Nat → Option String

/-- `ws.cell(row=r, column=c, value=v)`. -/
def setCell (ws : Worksheet) (r c : Nat) (v : Option String) : Worksheet :=
  fun r2 c2 => if r2 = r ∧ c2 = c then v else ws r2 c2

/-- The fixed header names of `ExcelColumns` in column order (columns
1 to 10). -/
def excelHeaders : List String :=
  ["Correo", "Status", "Nombre", "Email Personal", "Teléfono", "SIP",
   "Dirección", "Departamento", "Compañía", "Oficina"]

/-- The expected header of a column (1-based). -/
def headerName (c : Nat) : String := excelHeaders.getD (c - 1) ""

/-- `ExcelWriter._verify_headers` on an open workbook: every header cell of
row 1 that differs from the expected name is overwritten with it. -/
def verifyHeaders (ws : Worksheet) : Worksheet :=
  (List.range 10).foldl
    (fun w i =>
      let col := i + 1
      if w 1 col = some (headerName col) then w
      else setCell w 1 col (some (headerName col)))
    ws

/-- The field-to-column mapping of `ExcelWriter._write_contact_data`,
with each field's accessor. -/
def contactColumns : List ((ContactInfo → Option String) × Nat) :=
  [(ContactInfo.name, 3), (ContactInfo.email, 4), (ContactInfo.phone, 5),
   (ContactInfo.sip, 6), (ContactInfo.address, 7),
   (ContactInfo.department, 8), (ContactInfo.company, 9),
   (ContactInfo.office_location, 10)]

/-- `ExcelWriter._write_contact_data`: write each truthy field of the
record's data into its column of the record's row. -/
def writeContactData (ws : Worksheet) (row : Nat) (d : ContactInfo) :
    Worksheet :=
  contactColumns.foldl
    (fun w fc =>
      if pyTruthy (fc.1 d) then setCell w row fc.2 (fc.1 d) else w)
    ws

/-- `ExcelWriter._clear_contact_data`: clear columns 3 to 10 (Nombre through
Oficina) of the record's row. -/
def clearContactData (ws : Worksheet) (row : Nat) : Worksheet :=
  (List.range 8).foldl (fun w i => setCell w row (i + 3) none) ws

/-- `ExcelWriter.write_result` on an existing workbook:
`ensure_file_structure` (which re-verifies the header row), then the status
cell, then either the contact data (SUCCESS with data) or the cleared
contact columns (ERROR / NOT_FOUND). -/
def write_result (rec : EmailRecord) (ws : Worksheet) : Worksheet :=
  let ws1 := verifyHeaders ws
  let ws2 := setCell ws1 rec.row 2 (some rec.status.value)
  if rec.status = .SUCCESS ∧ rec.data ≠ none then
    writeContactData ws2 rec.row (rec.data.getD {})
  else if rec.status = .ERROR ∨ rec.status = .NOT_FOUND then
    clearContactData ws2 rec.row
  else ws2

/-- The per-record body of `ExcelWriter.write_batch_results` (the same
status/data/clear writes as `write_result`, without the header pass). -/
def writeOneOfBatch (ws : Worksheet) (rec : EmailRecord) : Worksheet :=
  let ws2 := setCell ws rec.row 2 (some rec.status.value)
  if rec.status = .SUCCESS ∧ rec.data ≠ none then
    writeContactData ws2 rec.row (rec.data.getD {})
  else if rec.status = .ERROR ∨ rec.status = .NOT_FOUND then
    clearContactData ws2 rec.row
  else ws2

/-- `ExcelWriter.write_batch_results` on an existing workbook: one header
pass, then every record of the batch written in order, in a single
load/save. -/
def write_batch_results (recs : List EmailRecord) (ws : Worksheet) :
    Worksheet :=
  recs.foldl writeOneOfBatch (verifyHeaders ws)

/-! ## The batch orchestrator (`core/browser.py`)

The UI interactions of a run are opaque to a pure embedding; each
interaction's outcome (element found or not, call returned or raised) is an
explicit input, so the orchestrator's control flow — which is what the
claims are about — is a deterministic function of those outcomes. -/

/-- The outcomes of the UI interactions of `_process_single_email` for one
record: whether `_find_email_token` found the token (it catches its own
exceptions and returns `None`), the outcome of the click on the token, the
outcome of the body of `extract_from_popup` (its engine-level `try` catches
this), and the outcome of the Escape keypress that closes the card. -/
structure RecordStep where
  tokenFound : Bool
  clickOutcome : Except String Unit
  extractionBody : Except String (Option ContactInfo)
  closeOutcome : Except String Unit
deriving Repr

/-- The counters of `BatchResult`. -/
structure BatchCounts where
  successful : Nat := 0
  not_found : Nat := 0
  errors : Nat := 0
deriving DecidableEq, Repr

/-- Componentwise sum of counters. -/
def BatchCounts.add (a b : BatchCounts) : BatchCounts :=
  { successful := a.successful + b.successful
    not_found := a.not_found + b.not_found
    errors := a.errors + b.errors }

/-- `BrowserAutomation._process_single_email`: the record's final state and
the counter increments. The `try` body classifies and counts, then presses
Escape; an exception anywhere in the body is caught by the per-record
`except`, which sets ERROR and increments the error counter (on top of any
increment the body already made); the `finally` appends the record. -/
def processSingleEmail (step : RecordStep) (rec : EmailRecord) :
    EmailRecord × BatchCounts :=
  if !step.tokenFound then
    ({ rec with status := .ERROR }, { errors := 1 })
  else
    match step.clickOutcome with
    | .error _ => ({ rec with status := .ERROR }, { errors := 1 })
    | .ok _ =>
      let ci := extractionEngineResult step.extractionBody
      let classified :=
        match ci with
        | some c =>
          if isValidContact c then
            ({ rec with status := .SUCCESS, data := some c },
             ({ successful := 1 } : BatchCounts))
          else ({ rec with status := .NOT_FOUND }, { not_found := 1 })
        | none => ({ rec with status := .NOT_FOUND }, { not_found := 1 })
      match step.closeOutcome with
      | .error _ =>
        ({ classified.1 with status := .ERROR },
         classified.2.add { errors := 1 })
      | .ok _ => classified

/-- The per-record loop of `_process_batch`: records are processed in order,
the step outcomes indexed by position; every record is appended (the
`finally`), and the counters accumulate. -/
def processLoop (stepFor : Nat → RecordStep) :
    Nat → List EmailRecord → List EmailRecord × BatchCounts
  | _, [] => ([], {})
  | i, r :: rs =>
    let (r1, d) := processSingleEmail (stepFor i) r
    let (rest, c) := processLoop stepFor (i + 1) rs
    (r1 :: rest, d.add c)

/-- The `except` handler of `_process_batch` (lines 255-262 of
`core/browser.py`): every record still PENDING is set to ERROR, counted as
an error, and appended to the batch result; records with any other status
are left untouched and not re-appended. Returns (updated records, records
appended to the batch result, error increments). -/
def markUnresolved (records : List EmailRecord) :
    List EmailRecord × List EmailRecord × Nat :=
  records.foldl
    (fun acc r =>
      if r.status = .PENDING then
        let r1 := { r with status := ProcessingStatus.ERROR }
        (acc.1 ++ [r1], acc.2.1 ++ [r1], acc.2.2 + 1)
      else (acc.1 ++ [r], acc.2.1, acc.2.2))
    ([], [], 0)

/-- The outcomes of the batch-level UI interactions of `_process_batch`:
page acquisition (`_get_or_create_page` catches internally and returns
`None` on failure), navigation plus the new-message click
(`_navigate_and_open_message`), and the address injection
(`_add_emails_to_field`). The teardown `_close_message` catches every
exception internally and so has no outcome that can escape. -/
structure BatchSteps where
  pageOk : Bool
  navigateOutcome : Except String Unit
  addEmailsOutcome : Except String Unit
  recordStep : Nat → RecordStep

/-- `BatchResult` of `core/browser.py`, restricted to the counters and the
appended records. -/
structure BatchOutcome where
  counts : BatchCounts
  records : List EmailRecord
deriving Repr

/-- `BrowserAutomation._process_batch`: page failure marks every record
ERROR; a setup exception (navigation or address injection) triggers the
`except` handler over the still-PENDING records; otherwise the per-record
loop runs and the teardown cannot raise. -/
def processBatch (steps : BatchSteps) (records : List EmailRecord) :
    BatchOutcome :=
  if !steps.pageOk then
    { counts := { errors := records.length }
      records := records.map (fun r => { r with status := .ERROR }) }
  else
    match steps.navigateOutcome with
    | .error _ =>
      let m := markUnresolved records
      { counts := { errors := m.2.2 }, records := m.2.1 }
    | .ok _ =>
      match steps.addEmailsOutcome with
      | .error _ =>
        let m := markUnresolved records
        { counts := { errors := m.2.2 }, records := m.2.1 }
      | .ok _ =>
        let (rs, c) := processLoop steps.recordStep 0 records
        { counts := c, records := rs }

/-- The batch loop of `BrowserAutomation.process_emails`: every batch is
processed in order with its own step outcomes; `_process_batch` catches all
its exceptions, so the loop always reaches every batch. -/
def processBatchesLoop (stepFor : Nat → BatchSteps) :
    Nat → List (List EmailRecord) → List BatchOutcome
  | _, [] => []
  | k, b :: bs =>
    processBatch (stepFor k) b :: processBatchesLoop stepFor (k + 1) bs

/-! ### Result-sink event traces (for the write-timing claim)

`process_emails` writes each batch's outcomes with one
`write_batch_results` call after `_process_batch` returns; the legacy
`browser_automation.procesar_lote` calls `escribir_resultado` once per
record, immediately after deciding that record's status. -/

/-- An observable event at the result sink: a record's in-memory
classification, a whole-batch Excel write (`write_batch_results`), or a
single-record Excel write (the legacy `escribir_resultado`). -/
inductive SinkEvent where
  | classified (row : Nat) (st : ProcessingStatus)
  | wroteBatch (rows : List (Nat × ProcessingStatus))
  | wroteOne (row : Nat) (st : ProcessingStatus)
deriving DecidableEq, Repr

/-- The event trace of one batch of the packaged orchestrator: the records
are classified one after the other inside `_process_batch`, and
`process_emails` then writes them all in a single `write_batch_results`
call. -/
def coreBatchTrace (steps : BatchSteps) (records : List EmailRecord) :
    List SinkEvent :=
  let out := processBatch steps records
  out.records.map (fun r => SinkEvent.classified r.row r.status) ++
    [SinkEvent.wroteBatch (out.records.map (fun r => (r.row, r.status)))]

/-- The event trace of one legacy batch (`procesar_lote`): each item's
status is decided and `escribir_resultado` is called immediately, before
the next item is looked at. The per-item decisions are the input. -/
def legacyLoteTrace (items : List (Nat × ProcessingStatus)) :
    List SinkEvent :=
  items.flatMap (fun it =>
    [SinkEvent.classified it.1 it.2, SinkEvent.wroteOne it.1 it.2])

/-- The event is an Excel write that covers the given row. -/
def SinkEvent.writesRow (e : SinkEvent) (row : Nat) : Bool :=
  match e with
  | .wroteBatch rows => rows.any (fun p => p.1 == row)
  | .wroteOne r _ => r == row
  | .classified _ _ => false

/-- The event is the classification of the given row. -/
def SinkEvent.classifiesRow (e : SinkEvent) (row : Nat) : Bool :=
  match e with
  | .classified r _ => r == row
  | _ => false

/-! ## Delay manager (`core/antidetection/delays.py`)

Durations are rationals (seconds); the millisecond bounds are rationals.
Each `random.*` draw is an explicit parameter: `g` is the
`random.gauss(mean, std_dev)` draw in milliseconds, `u` the
`random.uniform(-variation, variation)` micro-variation draw in seconds,
`p` the `random.uniform(-0.2, 0.3)` pattern-break draw in seconds. -/

/-- The mutable state of `DelayManager`: the last delay and the rolling
history (capped at 10). -/
structure DelayState where
  last_delay : ℚ := 0
  delay_history : List ℚ := []
deriving DecidableEq, Repr

/-- `DelayManager._gaussian_delay`: the Gaussian draw clamped to
`[min_ms, max_ms]` and converted to seconds. -/
def gaussian_delay (min_ms max_ms g : ℚ) : ℚ :=
  max min_ms (min max_ms g) / 1000

/-- `DelayManager._add_micro_variation`: the base delay plus the
`uniform(-0.05 * delay, 0.05 * delay)` draw. -/
def add_micro_variation (delay u : ℚ) : ℚ := delay + u

/-- The last three recorded delays (`self._delay_history[-3:]`). -/
def lastThree (hist : List ℚ) : List ℚ := hist.drop (hist.length - 3)

/-- `DelayManager._avoid_pattern`: when the history holds at least three
delays and each of the last three is within 0.1 s of the proposed delay,
the pattern-break draw is added; the result is floored at 0.1 s. -/
def avoid_pattern (hist : List ℚ) (delay p : ℚ) : ℚ :=
  let adjusted :=
    if 3 ≤ hist.length ∧ (lastThree hist).all (fun d => |d - delay| < 1/10)
    then delay + p else delay
  max (1/10) adjusted

/-- `DelayManager._record_delay`: append, pop the oldest entry once the
history exceeds ten, remember the last delay. -/
def record_delay (st : DelayState) (d : ℚ) : DelayState :=
  let h := st.delay_history ++ [d]
  { last_delay := d
    delay_history := if 10 < h.length then h.drop 1 else h }

/-- `DelayManager.get_delay`: Gaussian sample, micro-variation,
pattern avoidance, then recording. -/
def get_delay (st : DelayState) (min_ms max_ms g u p : ℚ) :
    ℚ × DelayState :=
  let naive := gaussian_delay min_ms max_ms g
  let jittered := add_micro_variation naive u
  let final := avoid_pattern st.delay_history jittered p
  (final, record_delay st final)

/-! ## Typing simulator (`core/antidetection/typing_simulator.py`)

`s` is the `random.uniform(min_speed, max_speed)` characters-per-second
draw, `r` the `random.random()` burst-trigger draw, `v` the
`uniform(-variation, variation)` rhythm draw. -/

/-- `TypingConfig` of the source, with its defaults (floats as exact
rationals). -/
structure TypingConfig where
  chars_per_second : ℚ × ℚ := (2, 6)
  mistake_probability : ℚ := 1/50
  correction_delay_ms : ℚ × ℚ := (100, 300)
  between_words_factor : ℚ := 3/2
  burst_typing_chance : ℚ := 3/10
  burst_duration : Nat := 5
deriving DecidableEq, Repr

/-- The mutable burst state of `TypingSimulator`. -/
structure TypingState where
  in_burst : Bool := false
  burst_remaining : Nat := 0
deriving DecidableEq, Repr

/-- Python's `char.isupper()` for a single character over the restricted
alphabet. -/
def pyCharIsUpper (c : Char) : Bool :=
  isCasedChar c && !(isLowerCased c)

/-- `TypingSimulator._get_char_delay`: base delay `1 / s`; in burst mode the
remaining count is decremented and the delay is `base * 0.4`; otherwise a
burst may start (`r < burst_typing_chance`, same `base * 0.4` delay), else
the space / punctuation / uppercase multipliers or the ±20% variation
apply. -/
def get_char_delay (cfg : TypingConfig) (st : TypingState) (ch : Char)
    (s r v : ℚ) : ℚ × TypingState :=
  let base := 1 / s
  if st.in_burst && 0 < st.burst_remaining then
    let rem := st.burst_remaining - 1
    (base * (2/5), { in_burst := !(rem == 0) && st.in_burst,
                     burst_remaining := rem })
  else if r < cfg.burst_typing_chance then
    (base * (2/5), { in_burst := true, burst_remaining := cfg.burst_duration })
  else if ch == ' ' then (base * cfg.between_words_factor, st)
  else if [',', '.', ';', ':', '!', '?'].contains ch then (base * (9/5), st)
  else if pyCharIsUpper ch then (base * (11/10), st)
  else (base + v, st)

/-! ## Mouse emulator (`core/antidetection/mouse_emulator.py`)

Coordinates are rational pairs. -/

/-- One point of the cubic Bézier formula of `_bezier_curve` at parameter
`t`. -/
def bezier_point (start stop c1 c2 : ℚ × ℚ) (t : ℚ) : ℚ × ℚ :=
  ((1 - t)^3 * start.1 + 3 * (1 - t)^2 * t * c1.1 +
     3 * (1 - t) * t^2 * c2.1 + t^3 * stop.1,
   (1 - t)^3 * start.2 + 3 * (1 - t)^2 * t * c1.2 +
     3 * (1 - t) * t^2 * c2.2 + t^3 * stop.2)

/-- `MouseEmulator._bezier_curve` with explicit control points: the points
at `t = i / steps` for `i = 0 .. steps` (the source's
`for i in range(steps + 1)`). -/
def bezier_curve (start stop c1 c2 : ℚ × ℚ) (steps : Nat) :
    List (ℚ × ℚ) :=
  (List.range (steps + 1)).map
    (fun i : Nat => bezier_point start stop c1 c2 ((i : ℚ) / (steps : ℚ)))

/-- The auto-generated control points of `_bezier_curve` when none are
supplied: `r1`, `r2` are the two `uniform(-0.3, 0.3)` draws. -/
def autoControls (start stop : ℚ × ℚ) (r1 r2 : ℚ) :
    (ℚ × ℚ) × (ℚ × ℚ) :=
  let dx := stop.1 - start.1
  let dy := stop.2 - start.2
  let ox := dy * r1
  let oy := -dx * r2
  ((start.1 + dx * (33/100) + ox, start.2 + dy * (33/100) + oy),
   (start.1 + dx * (66/100) - ox, start.2 + dy * (66/100) - oy))

/-- `MouseEmulator._apply_random_offset`: the integer offsets
`ox`, `oy` (each drawn from `randint(-10, 10)`) added to the target. -/
def apply_random_offset (p : ℚ × ℚ) (ox oy : ℤ) : ℚ × ℚ :=
  (p.1 + (ox : ℚ), p.2 + (oy : ℚ))

/-! ## Concrete instances used by the theorems -/

/-- A contact card whose entire text is one name line (the spec's §8
extraction example). -/
def garciaCard : PopupRead :=
  { visible := true, text := "GARCIA LOPEZ, MARIA", domResult := none }

/-- A batch of two pending records (rows 2 and 3). -/
def c4Records : List EmailRecord :=
  [{ email := "a@x.org", row := 2 }, { email := "b@x.org", row := 3 }]

/-- Interaction outcomes in which every step succeeds and extraction yields a
contact with a SIP address, so both records classify SUCCESS. -/
def c4Steps : BatchSteps :=
  { pageOk := true
    navigateOutcome := Except.ok ()
    addEmailsOutcome := Except.ok ()
    recordStep := fun _ =>
      { tokenFound := true, clickOutcome := Except.ok (),
        extractionBody := Except.ok (some { sip := some "sip:x@y.org" }),
        closeOutcome := Except.ok () } }

/-- A worksheet of 23 data rows (rows 2-24), each with an email and an empty
status cell: 23 pending records. -/
def c6Rows : List SheetRow :=
  (List.range 23).map
    (fun i => { row := i + 2, email := some "user@x.org", status := none })

/-- A worksheet whose only non-empty cell is a stray header in A1. -/
def c10Sheet : Worksheet :=
  fun r c => if r = 1 ∧ c = 1 then some "X" else none

/-- A NOT_FOUND outcome for the record of row 2. -/
def c10Rec : EmailRecord :=
  { email := "a@x.org", row := 2, status := .NOT_FOUND }

/-! ## Theorems

One main theorem per claim (C1-C10), with helper lemmas, counterexamples for
the claims the code falsifies, and witnesses for the theorems with
hypotheses. -/

/-! ### C1 — the validity rule -/

theorem strippedTruthy_pyTruthy {o : Option String}
    (h : strippedTruthy o = true) : pyTruthy o = true := by
  cases o with
  | none => simp [strippedTruthy] at h
  | some s =>
    simp only [strippedTruthy, Bool.and_eq_true] at h
    simpa [pyTruthy] using h.1

/-- Every branch of `_is_valid_contact` that returns `true` exhibits a truthy
field, and the final `has_any_data` catch-all accepts any truthy field, so
the whole cascade equals `hasAnyData`. -/
theorem isValidContact_eq_hasAnyData (ci : ContactInfo) :
    isValidContact ci = hasAnyData ci := by
  unfold isValidContact
  split
  · rename_i h
    simp [hasAnyData, strippedTruthy_pyTruthy h]
  split
  · rename_i h
    cases he : ci.email with
    | none => simp [he] at h
    | some e =>
      simp only [he, Bool.and_eq_true] at h
      simp [hasAnyData, pyTruthy, he, h.1.1]
  split
  · rename_i h
    simp [hasAnyData, strippedTruthy_pyTruthy h]
  split
  · rename_i h
    simp only [Bool.and_eq_true] at h
    simp [hasAnyData, h.1.2]
  split
  · rename_i h
    simp [hasAnyData, strippedTruthy_pyTruthy h]
  split
  · rename_i h
    simp [hasAnyData, strippedTruthy_pyTruthy h]
  rfl

/-- C1, counterexample: a contact whose extracted data is solely the
generic-token email `ASP164@MADRID.ORG` is classified SUCCESS by
`_is_valid_contact` (through the `has_any_data` catch-all), not NOT_FOUND as
the claim and the spec's validity rule state. -/
theorem C1_generic_token_counterexample :
    classifyContact (some genericOnlyContact) = ProcessingStatus.SUCCESS ∧
    specValidityRule genericOnlyContact = false ∧
    ProcessingStatus.SUCCESS ≠ ProcessingStatus.NOT_FOUND := by
  refine ⟨by decide, by decide, by decide⟩

/-- C1, amended: a processed lookup is classified SUCCESS iff the extracted
`ContactInfo` has at least one non-`None`, non-empty field — any of the
eight, including a lone generic-token email, company or office location —
and NOT_FOUND when extraction returned null; in particular the
generic-token-only card of the spec's example is classified SUCCESS. -/
theorem C1_validity_rule_amended :
    (∀ ci : ContactInfo,
      classifyContact (some ci) = ProcessingStatus.SUCCESS ↔
        hasAnyData ci = true) ∧
    classifyContact none = ProcessingStatus.NOT_FOUND ∧
    classifyContact (some genericOnlyContact) = ProcessingStatus.SUCCESS := by
  refine ⟨fun ci => ?_, rfl, by decide⟩
  simp only [classifyContact, isValidContact_eq_hasAnyData]
  constructor
  · intro h
    by_contra hh
    simp only [Bool.not_eq_true] at hh
    simp [hh] at h
  · intro h
    simp [h]

/-! ### C2 — when the extraction engine returns null -/

/-- C2, counterexample: the card whose entire text is the name line
`GARCIA LOPEZ, MARIA` is readable and `_extract_name` extracts the name from
it, yet `extract_from_popup` returns null, because the extracted info has
neither email nor phone and so fails `ContactInfo.is_valid`. -/
theorem C2_name_only_counterexample :
    extract_from_popup garciaCard = none ∧
    extract_name "GARCIA LOPEZ, MARIA" = some "GARCIA LOPEZ, MARIA" ∧
    extract_text_based "GARCIA LOPEZ, MARIA" = none := by
  refine ⟨by decide, by decide, by decide⟩

/-- C2, amended: `extract_from_popup` returns a contact only when it passes
`ContactInfo.is_valid` (an email or phone was extracted); a readable card
from which only other fields (such as the name) are extracted yields null,
as the name-only card shows. -/
theorem C2_extract_null_amended :
    (∀ (p : PopupRead) (ci : ContactInfo),
      extract_from_popup p = some ci → ci.is_valid = true) ∧
    extract_from_popup garciaCard = none ∧
    extract_name "GARCIA LOPEZ, MARIA" = some "GARCIA LOPEZ, MARIA" := by
  refine ⟨?_, by decide, by decide⟩
  rintro ⟨vis, text, dom⟩ ci h
  cases vis with
  | false => simp [extract_from_popup] at h
  | true =>
    simp only [extract_from_popup, Bool.not_true, Bool.false_eq_true,
      if_false] at h
    have htext :
        (match extract_text_based text with
          | some ci2 => if ci2.is_valid then some ci2 else none
          | none => none) = some ci → ci.is_valid = true := by
      intro hx
      cases he : extract_text_based text with
      | none => rw [he] at hx; simp at hx
      | some c2 =>
        rw [he] at hx
        by_cases hv : c2.is_valid
        · simp only [hv, if_true] at hx
          cases hx
          exact hv
        · simp [hv] at hx
    cases dom with
    | none => exact htext h
    | some c =>
      by_cases hv : c.is_valid
      · simp only [hv, if_true] at h
        cases h
        exact hv
      · simp only [hv, Bool.false_eq_true, if_false] at h
        exact htext h

/-! ### C3 — where an extraction exception lands -/

/-- The per-record loop classifies each record independently: the j-th
output record is `processSingleEmail` of the j-th step and the j-th input
record, so one record's failure cannot change another's outcome. -/
theorem processLoop_fst (stepFor : Nat → RecordStep) :
    ∀ (rs : List EmailRecord) (i : Nat),
      (processLoop stepFor i rs).1 =
        rs.mapIdx (fun j r => (processSingleEmail (stepFor (i + j)) r).1) := by
  intro rs
  induction rs with
  | nil => intro i; rfl
  | cons r rest ih =>
    intro i
    simp only [processLoop, List.mapIdx_cons, Nat.add_zero]
    rw [ih (i + 1)]
    have hfn : (fun j (a : EmailRecord) =>
          (processSingleEmail (stepFor (i + 1 + j)) a).1) =
        (fun j (a : EmailRecord) =>
          (processSingleEmail (stepFor (i + (j + 1))) a).1) := by
      funext j a
      rw [show i + 1 + j = i + (j + 1) by omega]
    rw [hfn]

/-- C3, counterexample: when the extraction body raises, the engine's own
`except` swallows the exception and returns null, so the record is marked
NOT_FOUND — not ERROR as the claim states. -/
theorem C3_extraction_error_counterexample :
    (processSingleEmail
        { tokenFound := true, clickOutcome := Except.ok (),
          extractionBody := Except.error "extraction raised",
          closeOutcome := Except.ok () }
        { email := "a@x.org", row := 2 }).1.status =
      ProcessingStatus.NOT_FOUND ∧
    ProcessingStatus.NOT_FOUND ≠ ProcessingStatus.ERROR := by
  refine ⟨by decide, by decide⟩

/-- C3, amended: an exception thrown inside the extraction engine is caught
within the engine and surfaces as null, so the record is marked NOT_FOUND;
exceptions of the other per-record UI steps (here: the click on the token)
are caught at the per-record boundary and mapped to ERROR; and in both cases
only that record is affected — the loop classifies every record
independently and processes them all. -/
theorem C3_extraction_error_amended :
    (∀ (step : RecordStep) (rec : EmailRecord),
      step.tokenFound = true → step.clickOutcome = Except.ok () →
      (∃ e, step.extractionBody = Except.error e) →
      step.closeOutcome = Except.ok () →
      (processSingleEmail step rec).1.status = ProcessingStatus.NOT_FOUND) ∧
    (∀ (step : RecordStep) (rec : EmailRecord),
      step.tokenFound = true →
      (∃ e, step.clickOutcome = Except.error e) →
      (processSingleEmail step rec).1.status = ProcessingStatus.ERROR) ∧
    (∀ (stepFor : Nat → RecordStep) (i : Nat) (rs : List EmailRecord),
      (processLoop stepFor i rs).1 =
        rs.mapIdx (fun j r => (processSingleEmail (stepFor (i + j)) r).1)) := by
  refine ⟨?_, ?_, fun stepFor i rs => processLoop_fst stepFor rs i⟩
  · rintro step rec htok hclick ⟨e, hex⟩ hclose
    simp [processSingleEmail, htok, hclick, hex, hclose, extractionEngineResult]
  · rintro step rec htok ⟨e, hclick⟩
    simp [processSingleEmail, htok, hclick]

/-! ### C4 — when outcomes reach the result sink -/

/-- C4, counterexample: in the packaged orchestrator's trace of a two-record
batch, the second record (row 3) is classified at index 1, and no event
before that writes row 2's outcome to the Excel file — the single batch
write comes only at the end. -/
theorem C4_buffered_write_counterexample :
    coreBatchTrace c4Steps c4Records =
      [SinkEvent.classified 2 .SUCCESS, SinkEvent.classified 3 .SUCCESS,
       SinkEvent.wroteBatch [(2, .SUCCESS), (3, .SUCCESS)]] ∧
    SinkEvent.classifiesRow
      ((coreBatchTrace c4Steps c4Records).getD 1
        (SinkEvent.classified 0 .PENDING)) 3 = true ∧
    ¬∃ j < 1, ((coreBatchTrace c4Steps c4Records).getD j
        (SinkEvent.classified 0 .PENDING)).writesRow 2 = true := by
  refine ⟨by decide, by decide, by decide⟩

/-- C4, amended: the packaged orchestrator buffers outcomes within a batch —
its trace ends in a single `write_batch_results` event carrying every
record's outcome in processing order, and every earlier event is a
classification, never an Excel write; only the legacy `procesar_lote` writes
each record immediately after its classification. -/
theorem C4_batch_write_amended :
    (∀ (steps : BatchSteps) (records : List EmailRecord),
      (coreBatchTrace steps records).getLast? =
        some (SinkEvent.wroteBatch
          ((processBatch steps records).records.map
            (fun r => (r.row, r.status)))) ∧
      (∀ e ∈ (coreBatchTrace steps records).dropLast,
        ∃ row st, e = SinkEvent.classified row st)) ∧
    (∀ (items : List (Nat × ProcessingStatus)) (k : Nat) (row : Nat)
        (st : ProcessingStatus),
      (legacyLoteTrace items).get? k = some (SinkEvent.classified row st) →
      (legacyLoteTrace items).get? (k + 1) =
        some (SinkEvent.wroteOne row st)) := by
  constructor
  · intro steps records
    constructor
    · rw [coreBatchTrace, List.getLast?_concat]
    · intro e he
      rw [coreBatchTrace, List.dropLast_concat] at he
      rcases List.mem_map.mp he with ⟨r, _, rfl⟩
      exact ⟨r.row, r.status, rfl⟩
  · intro items
    induction items with
    | nil => intro k row st h; simp [legacyLoteTrace] at h
    | cons it rest ih =>
      intro k row st h
      match k with
      | 0 =>
        simp only [legacyLoteTrace, List.flatMap_cons, List.cons_append,
          List.get?] at h ⊢
        cases h
        rfl
      | 1 =>
        simp only [legacyLoteTrace, List.flatMap_cons, List.cons_append,
          List.get?] at h
        exact absurd h (by simp)
      | (n + 2) =>
        simp only [legacyLoteTrace, List.flatMap_cons, List.cons_append,
          List.get?] at h ⊢
        exact ih n row st h

/-! ### C5 — batch-level failure isolation -/

theorem markUnresolved_go :
    ∀ (records : List EmailRecord)
      (acc : List EmailRecord × List EmailRecord × Nat),
      records.foldl
        (fun acc r =>
          if r.status = .PENDING then
            let r1 := { r with status := ProcessingStatus.ERROR }
            (acc.1 ++ [r1], acc.2.1 ++ [r1], acc.2.2 + 1)
          else (acc.1 ++ [r], acc.2.1, acc.2.2))
        acc =
      (acc.1 ++ records.map
          (fun r => if r.status = .PENDING then
            { r with status := ProcessingStatus.ERROR } else r),
       acc.2.1 ++
         (records.filter (fun r => r.status == ProcessingStatus.PENDING)).map
           (fun r => { r with status := ProcessingStatus.ERROR }),
       acc.2.2 +
         (records.filter
           (fun r => r.status == ProcessingStatus.PENDING)).length) := by
  intro records
  induction records with
  | nil => intro acc; simp
  | cons r rest ih =>
    intro acc
    simp only [List.foldl_cons]
    by_cases hp : r.status = ProcessingStatus.PENDING
    · rw [if_pos hp, ih]
      have hd : (r.status == ProcessingStatus.PENDING) = true := by
        simp [hp]
      simp only [List.filter_cons, hd, if_true, List.map_cons,
        List.length_cons]
      exact Prod.ext (by simp [hp]) (Prod.ext (by simp [hp]) (by simp; omega))
    · rw [if_neg hp, ih]
      have hd : (r.status == ProcessingStatus.PENDING) = false := by
        simpa using hp
      simp only [List.filter_cons, hd, Bool.false_eq_true, if_false,
        List.map_cons]
      exact Prod.ext (by simp [hp]) (Prod.ext rfl rfl)

/-- The `except` handler of `_process_batch` in closed form: every record is
kept (pending ones switched to ERROR), only the pending ones are appended to
the batch result, and the error count is the number of pending records. -/
theorem markUnresolved_spec (records : List EmailRecord) :
    markUnresolved records =
      (records.map
        (fun r => if r.status = .PENDING then
          { r with status := ProcessingStatus.ERROR } else r),
       (records.filter (fun r => r.status == ProcessingStatus.PENDING)).map
        (fun r => { r with status := ProcessingStatus.ERROR }),
       (records.filter
         (fun r => r.status == ProcessingStatus.PENDING)).length) := by
  have := markUnresolved_go records ([], [], 0)
  simpa [markUnresolved] using this

/-- C5: an exception in batch setup or address injection routes through the
handler that sets exactly the still-PENDING records to ERROR (counting each
as an error) and leaves every already-classified record's status and data
untouched; and the batch loop of `process_emails` processes every batch
independently of the others, so the run continues with the next batch.
Teardown (`_close_message`) catches all its exceptions internally, so no
teardown exception can escape — the teardown case of the claim is vacuously
satisfied. -/
theorem C5_batch_failure_isolation :
    (∀ records : List EmailRecord,
      (markUnresolved records).1 =
        records.map (fun r =>
          if r.status = .PENDING then
            { r with status := ProcessingStatus.ERROR } else r) ∧
      (markUnresolved records).2.1 =
        (records.filter (fun r => r.status == ProcessingStatus.PENDING)).map
          (fun r => { r with status := ProcessingStatus.ERROR }) ∧
      (markUnresolved records).2.2 =
        (records.filter
          (fun r => r.status == ProcessingStatus.PENDING)).length) ∧
    (∀ (steps : BatchSteps) (records : List EmailRecord),
      steps.pageOk = true →
      ((∃ e, steps.navigateOutcome = Except.error e) ∨
        (steps.navigateOutcome = Except.ok () ∧
          ∃ e, steps.addEmailsOutcome = Except.error e)) →
      (processBatch steps records).records =
          (records.filter
            (fun r => r.status == ProcessingStatus.PENDING)).map
            (fun r => { r with status := ProcessingStatus.ERROR }) ∧
        (processBatch steps records).counts.errors =
          (records.filter
            (fun r => r.status == ProcessingStatus.PENDING)).length) ∧
    (∀ (stepFor : Nat → BatchSteps) (k : Nat)
        (batches : List (List EmailRecord)),
      processBatchesLoop stepFor k batches =
        batches.mapIdx (fun j b => processBatch (stepFor (k + j)) b)) := by
  refine ⟨?_, ?_, ?_⟩
  · intro records
    exact ⟨by rw [markUnresolved_spec], by rw [markUnresolved_spec],
      by rw [markUnresolved_spec]⟩
  · intro steps records hpage herr
    rcases herr with ⟨e, hnav⟩ | ⟨hnav, e, hadd⟩
    · simp only [processBatch, hpage, Bool.not_true, Bool.false_eq_true,
        if_false, hnav, markUnresolved_spec]
      refine ⟨?_, ?_⟩ <;> trivial
    · simp only [processBatch, hpage, Bool.not_true, Bool.false_eq_true,
        if_false, hnav, hadd, markUnresolved_spec]
      refine ⟨?_, ?_⟩ <;> trivial
  · intro stepFor k batches
    induction batches generalizing k with
    | nil => rfl
    | cons b rest ih =>
      simp only [processBatchesLoop, List.mapIdx_cons, Nat.add_zero]
      rw [ih (k + 1)]
      have hfn : (fun j (a : List EmailRecord) =>
            processBatch (stepFor (k + 1 + j)) a) =
          (fun j (a : List EmailRecord) =>
            processBatch (stepFor (k + (j + 1))) a) := by
        funext j a
        rw [show k + 1 + j = k + (j + 1) by omega]
      rw [hfn]

/-! ### C6 — batch splitting -/

theorem makeBatchesGo_flatten {α : Type} (bs : Nat) :
    ∀ (fuel : Nat) (l : List α), l.length ≤ fuel →
      (makeBatchesGo bs fuel l).flatten = l := by
  intro fuel
  induction fuel with
  | zero =>
    intro l hl
    have : l = [] := List.length_eq_zero.mp (Nat.le_zero.mp hl)
    subst this
    rfl
  | succ fuel ih =>
    intro l hl
    cases l with
    | nil => rfl
    | cons a t =>
      simp only [List.length_cons] at hl
      simp only [makeBatchesGo, List.flatten_cons]
      rw [ih (t.drop (bs - 1)) (by simp only [List.length_drop]; omega)]
      simp [List.take_append_drop]

theorem makeBatchesGo_mem_length {α : Type} (bs : Nat) :
    ∀ (fuel : Nat) (l : List α) (b : List α),
      b ∈ makeBatchesGo bs fuel l → 1 ≤ b.length ∧ b.length ≤ bs - 1 + 1 := by
  intro fuel
  induction fuel with
  | zero => intro l b hb; simp [makeBatchesGo] at hb
  | succ fuel ih =>
    intro l b hb
    cases l with
    | nil => simp [makeBatchesGo] at hb
    | cons a t =>
      simp only [makeBatchesGo, List.mem_cons] at hb
      rcases hb with rfl | hb
      · refine ⟨by simp, ?_⟩
        simp only [List.length_cons]
        have := List.length_take (bs - 1) t
        omega
      · exact ih _ _ hb

theorem makeBatchesGo_nil_of_nil {α : Type} (bs fuel : Nat) :
    makeBatchesGo bs fuel ([] : List α) = [] := by
  cases fuel <;> rfl

theorem makeBatchesGo_ne_nil {α : Type} (bs fuel : Nat) (l : List α)
    (hne : l ≠ []) (hf : l.length ≤ fuel) : makeBatchesGo bs fuel l ≠ [] := by
  cases fuel with
  | zero =>
    cases l with
    | nil => exact absurd rfl hne
    | cons a t => simp at hf
  | succ fuel =>
    cases l with
    | nil => exact absurd rfl hne
    | cons a t => simp [makeBatchesGo]

theorem makeBatchesGo_dropLast_length {α : Type} (bs : Nat) (hbs : 1 ≤ bs) :
    ∀ (fuel : Nat) (l : List α) (b : List α), l.length ≤ fuel →
      b ∈ (makeBatchesGo bs fuel l).dropLast → b.length = bs := by
  intro fuel
  induction fuel with
  | zero => intro l b _ hb; simp [makeBatchesGo] at hb
  | succ fuel ih =>
    intro l b hl hb
    cases l with
    | nil => simp [makeBatchesGo] at hb
    | cons a t =>
      simp only [List.length_cons] at hl
      simp only [makeBatchesGo] at hb
      have hdl : (t.drop (bs - 1)).length ≤ fuel := by
        simp only [List.length_drop]; omega
      by_cases hdn : t.drop (bs - 1) = []
      · rw [hdn, makeBatchesGo_nil_of_nil] at hb
        simp at hb
      · rw [List.dropLast_cons_of_ne_nil
          (makeBatchesGo_ne_nil bs fuel _ hdn hdl)] at hb
        rcases List.mem_cons.mp hb with rfl | hb2
        · have hlt : bs - 1 < t.length := by
            by_contra hge
            push_neg at hge
            exact hdn (List.drop_eq_nil_of_le hge)
          simp only [List.length_cons, List.length_take]
          omega
        · exact ih (t.drop (bs - 1)) b hdl hb2

/-- The reader's row loop in closed form: it accumulates exactly the pending
rows (in sheet order, as records) and the counters. -/
theorem readRowsLoop_spec :
    ∀ (rows : List SheetRow) (acc : List EmailRecord × Nat × Nat),
      rows.foldl
        (fun acc r =>
          if emailCellOk r.email then
            if statusCellEmpty r.status then
              (acc.1 ++ [{ email := pyStrip (r.email.getD ""), row := r.row,
                           status := .PENDING }], acc.2.1 + 1, acc.2.2)
            else (acc.1, acc.2.1 + 1, acc.2.2 + 1)
          else acc)
        acc =
      (acc.1 ++ (rows.filter rowPending).map
          (fun r => { email := pyStrip (r.email.getD ""), row := r.row,
                      status := ProcessingStatus.PENDING }),
       acc.2.1 + (rows.filter rowCounted).length,
       acc.2.2 +
         (rows.filter (fun r => rowCounted r && !rowPending r)).length) := by
  intro rows
  induction rows with
  | nil => intro acc; simp
  | cons r rest ih =>
    intro acc
    simp only [List.foldl_cons]
    by_cases he : emailCellOk r.email
    · by_cases hs : statusCellEmpty r.status
      · rw [if_pos he, if_pos hs, ih]
        have hp : rowPending r = true := by simp [rowPending, he, hs]
        have hc : rowCounted r = true := by simp [rowCounted, he]
        simp only [List.filter_cons, hp, hc, hs, Bool.not_true,
          Bool.and_false, if_true, if_false, List.map_cons, List.length_cons,
          Prod.mk.injEq]
        refine ⟨by simp, by omega, rfl⟩
      · rw [if_pos he, if_neg hs, ih]
        have hp : rowPending r = false := by simp [rowPending, he, hs]
        have hc : rowCounted r = true := by simp [rowCounted, he]
        simp only [List.filter_cons, hp, hc, Bool.not_false, Bool.and_true,
          if_true, if_false, List.length_cons, Prod.mk.injEq]
        refine ⟨rfl, by omega, by omega⟩
    · rw [if_neg he, ih]
      have hp : rowPending r = false := by simp [rowPending, he]
      have hc : rowCounted r = false := by simp [rowCounted, he]
      simp [List.filter_cons, hp, hc]

/-- C6: `read_pending_emails` with batch size at least 1 partitions exactly
the pending rows (empty status marker), in sheet order, into consecutive
batches whose concatenation is the pending list; every batch except possibly
the last has exactly the batch size, every batch is non-empty and no longer
than the batch size; and on a sheet of 23 pending rows with batch size 10
the batch sizes are [10, 10, 3]. -/
theorem C6_batch_partition :
    (∀ (rows : List SheetRow) (bs : Nat), 1 ≤ bs →
      (read_pending_emails rows bs).batches.flatten =
          (rows.filter rowPending).map
            (fun r => { email := pyStrip (r.email.getD ""), row := r.row,
                        status := ProcessingStatus.PENDING }) ∧
        (∀ b ∈ (read_pending_emails rows bs).batches.dropLast,
          b.length = bs) ∧
        (∀ b ∈ (read_pending_emails rows bs).batches,
          1 ≤ b.length ∧ b.length ≤ bs)) ∧
    (read_pending_emails c6Rows 10).batches.map List.length = [10, 10, 3] ∧
    (read_pending_emails c6Rows 10).pending_count = 23 := by
  refine ⟨?_, by decide, by decide⟩
  intro rows bs hbs
  have hloop : readRowsLoop rows =
      ((rows.filter rowPending).map
        (fun r => { email := pyStrip (r.email.getD ""), row := r.row,
                    status := ProcessingStatus.PENDING }),
       (rows.filter rowCounted).length,
       (rows.filter (fun r => rowCounted r && !rowPending r)).length) := by
    have := readRowsLoop_spec rows ([], 0, 0)
    simpa [readRowsLoop] using this
  refine ⟨?_, ?_, ?_⟩
  · simp only [read_pending_emails, hloop, makeBatches]
    exact makeBatchesGo_flatten bs _ _ le_rfl
  · intro b hb
    simp only [read_pending_emails, hloop, makeBatches] at hb
    exact makeBatchesGo_dropLast_length bs hbs _ _ b le_rfl hb
  · intro b hb
    simp only [read_pending_emails, hloop, makeBatches] at hb
    have := makeBatchesGo_mem_length bs _ _ b hb
    omega

/-! ### C7 — the burst-mode speed factor -/

/-- C7, counterexample: in burst mode with base delay 1 (speed draw 1 char
per second) the emitted delay is `0.4`, not the `0.25` that "base delay
divided by 4" would give. -/
theorem C7_burst_factor_counterexample :
    (get_char_delay {} ⟨true, 3⟩ 'a' 1 1 0).1 = 2/5 ∧
    (get_char_delay {} ⟨true, 3⟩ 'a' 1 1 0).1 ≠ (1 : ℚ) / 1 / 4 := by
  constructor
  · norm_num [get_char_delay]
  · norm_num [get_char_delay]

/-- C7, amended: whenever burst mode is active (in burst with characters
remaining), the inter-character delay equals the base delay times 0.4, i.e.
the typing speed is multiplied by 2.5 — not quadrupled. -/
theorem C7_burst_delay_amended (cfg : TypingConfig) (st : TypingState)
    (ch : Char) (s r v : ℚ) (hb : st.in_burst = true)
    (hr : 0 < st.burst_remaining) :
    (get_char_delay cfg st ch s r v).1 = (1 / s) * (2/5) := by
  simp [get_char_delay, hb, hr]

/-- C7, witness. -/
theorem C7_burst_delay_witness :
    (get_char_delay {} ⟨true, 3⟩ 'a' 1 1 0).1 = (1 / 1) * (2/5) :=
  C7_burst_delay_amended {} ⟨true, 3⟩ 'a' 1 1 0 rfl (by norm_num)

/-! ### C8 — when the pattern-break fires -/

/-- C8, counterexample: with the last three recorded delays all equal to 1 s
and a clamped Gaussian draw of 1.25 s (zero jitter), the proposal is not
within 0.1 s of the history, the pattern-break does not fire, and `get_delay`
returns exactly the naive clamped Gaussian sample — differing from it by
zero, against the claim. -/
theorem C8_pattern_break_counterexample :
    lastThree (DelayState.mk 1 [1, 1, 1]).delay_history = [1, 1, 1] ∧
    (get_delay ⟨1, [1, 1, 1]⟩ 500 2000 1250 0 (1/4)).1 =
      gaussian_delay 500 2000 1250 := by
  refine ⟨by norm_num [lastThree], ?_⟩
  norm_num [get_delay, gaussian_delay, add_micro_variation, avoid_pattern,
    lastThree]
  rw [if_neg (by rw [abs_lt]; push_neg; intro h; norm_num)]
  rw [max_eq_right (by norm_num)]

/-- C8, amended: with the last three recorded delays all equal to `d`, the
next `get_delay` adds the pattern-break perturbation `p` iff the jittered
proposal lies within 0.1 s of `d`; the result is the 0.1 s floor applied to
the proposal, perturbed exactly in that case — so the pattern-break does not
fire on every such state, only when the proposal lands near the history. -/
theorem C8_pattern_break_amended (st : DelayState)
    (min_ms max_ms g u p d : ℚ)
    (h3 : lastThree st.delay_history = [d, d, d]) :
    (get_delay st min_ms max_ms g u p).1 =
      max (1/10)
        (if |d - (gaussian_delay min_ms max_ms g + u)| < 1/10 then
          gaussian_delay min_ms max_ms g + u + p
        else gaussian_delay min_ms max_ms g + u) := by
  have hlen : 3 ≤ st.delay_history.length := by
    by_contra hlt
    push_neg at hlt
    have hl : (lastThree st.delay_history).length =
        st.delay_history.length - (st.delay_history.length - 3) := by
      simp [lastThree]
    rw [h3] at hl
    simp at hl
    omega
  have hcond : (3 ≤ st.delay_history.length ∧
      ((lastThree st.delay_history).all fun x =>
        decide (|x - add_micro_variation (gaussian_delay min_ms max_ms g) u| <
          1/10)) = true) ↔
      |d - (gaussian_delay min_ms max_ms g + u)| < 1/10 := by
    rw [h3]
    simp [hlen, add_micro_variation]
  simp only [get_delay, avoid_pattern]
  rw [if_congr hcond rfl rfl]
  simp [add_micro_variation]

/-- C8, witness: a state where the pattern-break does fire. -/
theorem C8_pattern_break_witness :
    (get_delay ⟨5/4, [5/4, 5/4, 5/4]⟩ 500 2000 1250 0 (1/4)).1 =
      max (1/10)
        (if |(5/4 : ℚ) - (gaussian_delay 500 2000 1250 + 0)| < 1/10 then
          gaussian_delay 500 2000 1250 + 0 + 1/4
        else gaussian_delay 500 2000 1250 + 0) :=
  C8_pattern_break_amended ⟨5/4, [5/4, 5/4, 5/4]⟩ 500 2000 1250 0 (1/4) (5/4)
    (by norm_num [lastThree])

/-! ### C9 — Bézier path endpoints -/

theorem bezier_point_zero (start stop c1 c2 : ℚ × ℚ) :
    bezier_point start stop c1 c2 0 = start := by
  simp [bezier_point]

theorem bezier_point_one (start stop c1 c2 : ℚ × ℚ) :
    bezier_point start stop c1 c2 1 = stop := by
  simp [bezier_point]

/-- C9: for every start point, end point (in `move_to_async` this is the
offset target `apply_random_offset target ox oy`), control points and
`steps ≥ 1`, the sampled Bézier path has `steps + 1` points, begins exactly
at the start point and ends exactly at the end point. -/
theorem C9_bezier_endpoints (start stop c1 c2 : ℚ × ℚ) (steps : Nat)
    (h : 1 ≤ steps) :
    (bezier_curve start stop c1 c2 steps).length = steps + 1 ∧
    (bezier_curve start stop c1 c2 steps).head? = some start ∧
    (bezier_curve start stop c1 c2 steps).getLast? = some stop := by
  refine ⟨by simp [bezier_curve], ?_, ?_⟩
  · rw [bezier_curve, List.range_succ_eq_map]
    simp [bezier_point_zero]
  · rw [bezier_curve, List.range_succ, List.map_append]
    simp only [List.map_cons, List.map_nil, List.getLast?_concat]
    have hs : ((steps : ℚ)) ≠ 0 := by
      have hnz : steps ≠ 0 := by omega
      exact_mod_cast hnz
    rw [div_self hs, bezier_point_one]

/-- C9, witness. -/
theorem C9_bezier_endpoints_witness :
    (bezier_curve (0, 0) (3, 5) (1, 1) (2, 2) 2).length = 2 + 1 ∧
    (bezier_curve (0, 0) (3, 5) (1, 1) (2, 2) 2).head? = some (0, 0) ∧
    (bezier_curve (0, 0) (3, 5) (1, 1) (2, 2) 2).getLast? = some (3, 5) :=
  C9_bezier_endpoints (0, 0) (3, 5) (1, 1) (2, 2) 2 (by norm_num)

/-! ### C10 — the frame of a result write -/

theorem condHeader_at (w : Worksheet) (col r c : Nat) :
    (if w 1 col = some (headerName col) then w
     else setCell w 1 col (some (headerName col))) r c =
    if r = 1 ∧ c = col then some (headerName col) else w r c := by
  split
  · rename_i hw
    split
    · rename_i hrc
      rcases hrc with ⟨h1, h2⟩
      subst h1; subst h2
      exact hw
    · rfl
  · rfl

theorem headerFold_at (cols : List Nat) (ws : Worksheet) (r c : Nat) :
    (cols.foldl
      (fun w col =>
        if w 1 col = some (headerName col) then w
        else setCell w 1 col (some (headerName col))) ws) r c =
    if r = 1 ∧ c ∈ cols then some (headerName c) else ws r c := by
  induction cols generalizing ws with
  | nil => simp
  | cons col rest ih =>
    simp only [List.foldl_cons]
    rw [ih, condHeader_at]
    by_cases hr : r = 1
    · subst hr
      by_cases hm : c ∈ rest
      · simp [hm]
      · by_cases hcc : c = col
        · subst hcc
          simp [hm]
        · simp [hm, hcc]
    · simp [hr]

/-- `_verify_headers` pointwise: header cells of row 1 all end up holding
the expected header names; every other cell is untouched. -/
theorem verifyHeaders_at (ws : Worksheet) (r c : Nat) :
    verifyHeaders ws r c =
      if r = 1 ∧ 1 ≤ c ∧ c ≤ 10 then some (headerName c) else ws r c := by
  have hv : verifyHeaders ws =
      (((List.range 10).map (fun i => i + 1)).foldl
        (fun w col =>
          if w 1 col = some (headerName col) then w
          else setCell w 1 col (some (headerName col))) ws) := by
    rw [List.foldl_map]
    rfl
  rw [hv, headerFold_at]
  have hmem : (c ∈ (List.range 10).map (fun i => i + 1)) ↔
      (1 ≤ c ∧ c ≤ 10) := by
    simp only [List.mem_map, List.mem_range]
    constructor
    · rintro ⟨i, hi, rfl⟩
      omega
    · rintro ⟨h1, h2⟩
      exact ⟨c - 1, by omega, by omega⟩
  by_cases hr : r = 1
  · subst hr
    by_cases hc : 1 ≤ c ∧ c ≤ 10
    · rw [if_pos ⟨rfl, hmem.mpr hc⟩, if_pos ⟨rfl, hc⟩]
    · rw [if_neg (fun h => hc (hmem.mp h.2)), if_neg (fun h => hc h.2)]
  · rw [if_neg (fun h => hr h.1), if_neg (fun h => hr h.1)]

theorem clearFold_at (cols : List Nat) (ws : Worksheet) (row r c : Nat) :
    (cols.foldl (fun w col => setCell w row col none) ws) r c =
    if r = row ∧ c ∈ cols then none else ws r c := by
  induction cols generalizing ws with
  | nil => simp
  | cons col rest ih =>
    simp only [List.foldl_cons]
    rw [ih]
    simp only [setCell]
    by_cases hr : r = row
    · subst hr
      by_cases hm : c ∈ rest
      · simp [hm]
      · by_cases hcc : c = col
        · subst hcc
          simp [hm]
        · simp [hm, hcc]
    · simp [hr]

/-- `_clear_contact_data` pointwise: columns 3-10 of the record's row are
cleared; every other cell is untouched. -/
theorem clearContactData_at (ws : Worksheet) (row r c : Nat) :
    clearContactData ws row r c =
      if r = row ∧ 3 ≤ c ∧ c ≤ 10 then none else ws r c := by
  have hv : clearContactData ws row =
      (((List.range 8).map (fun i => i + 3)).foldl
        (fun w col => setCell w row col none) ws) := by
    rw [List.foldl_map]
    rfl
  rw [hv, clearFold_at]
  have hmem : (c ∈ (List.range 8).map (fun i => i + 3)) ↔
      (3 ≤ c ∧ c ≤ 10) := by
    simp only [List.mem_map, List.mem_range]
    constructor
    · rintro ⟨i, hi, rfl⟩
      omega
    · rintro ⟨h1, h2⟩
      exact ⟨c - 3, by omega, by omega⟩
  by_cases hr : r = row
  · subst hr
    by_cases hc : 3 ≤ c ∧ c ≤ 10
    · rw [if_pos ⟨rfl, hmem.mpr hc⟩, if_pos ⟨rfl, hc⟩]
    · rw [if_neg (fun h => hc (hmem.mp h.2)), if_neg (fun h => hc h.2)]
  · rw [if_neg (fun h => hr h.1), if_neg (fun h => hr h.1)]

theorem condWrite_at (w : Worksheet) (row col : Nat) (v : Option String)
    (r c : Nat) :
    (if pyTruthy v then setCell w row col v else w) r c =
    if r = row ∧ c = col ∧ pyTruthy v then v else w r c := by
  split
  · rename_i hv
    simp [setCell, hv, and_assoc]
  · rename_i hv
    simp [hv]

theorem writeContactData_other (ws : Worksheet) (row : Nat) (d : ContactInfo)
    (r c : Nat) (hr : r ≠ row) :
    writeContactData ws row d r c = ws r c := by
  simp only [writeContactData, contactColumns, List.foldl_cons, List.foldl_nil]
  simp only [condWrite_at]
  simp [hr]

theorem writeContactData_col (ws : Worksheet) (row : Nat) (d : ContactInfo) :
    ∀ fc ∈ contactColumns,
      writeContactData ws row d row fc.2 =
        if pyTruthy (fc.1 d) then fc.1 d else ws row fc.2 := by
  intro fc hfc
  simp only [contactColumns, List.mem_cons, List.not_mem_nil, or_false] at hfc
  rcases hfc with rfl | rfl | rfl | rfl | rfl | rfl | rfl | rfl <;>
    · simp only [writeContactData, contactColumns, List.foldl_cons,
        List.foldl_nil]
      simp only [condWrite_at]
      norm_num

theorem writeContactData_statuscol (ws : Worksheet) (row : Nat)
    (d : ContactInfo) (c : Nat) (hc : c < 3) :
    writeContactData ws row d row c = ws row c := by
  simp only [writeContactData, contactColumns, List.foldl_cons, List.foldl_nil]
  simp only [condWrite_at]
  have h3 : ¬(c = 3) := by omega
  have h4 : ¬(c = 4) := by omega
  have h5 : ¬(c = 5) := by omega
  have h6 : ¬(c = 6) := by omega
  have h7 : ¬(c = 7) := by omega
  have h8 : ¬(c = 8) := by omega
  have h9 : ¬(c = 9) := by omega
  have h10 : ¬(c = 10) := by omega
  simp [h3, h4, h5, h6, h7, h8, h9, h10]

/-- C10, counterexample: writing a NOT_FOUND result for row 2 into a sheet
whose A1 header differs from the expected name also rewrites cell (1,1) —
the write does modify a cell of another row, against the claim. -/
theorem C10_header_rewrite_counterexample :
    write_result c10Rec c10Sheet 1 1 = some "Correo" ∧
    c10Sheet 1 1 = some "X" ∧
    write_result c10Rec c10Sheet 1 1 ≠ c10Sheet 1 1 := by
  refine ⟨by decide, by decide, by decide⟩

/-- C10, amended: a NOT_FOUND / ERROR write sets the row's status cell to the
literal token, clears the eight contact columns (C-J) of that row, and
modifies no cell of any other row below the header — but the header row 1 is
rewritten to the expected header names (columns 1-10) whenever they differ,
because `write_result` re-verifies the file structure; a SUCCESS write fills
exactly the non-empty extracted fields of its row and leaves every other row
below the header untouched. -/
theorem C10_write_frame_amended :
    (∀ (ws : Worksheet) (rec : EmailRecord),
      (rec.status = .NOT_FOUND ∨ rec.status = .ERROR) → 2 ≤ rec.row →
        (write_result rec ws rec.row 2 = some rec.status.value ∧
         (∀ c, 3 ≤ c → c ≤ 10 → write_result rec ws rec.row c = none) ∧
         (∀ r c, r ≠ rec.row → r ≠ 1 → write_result rec ws r c = ws r c) ∧
         (∀ c, 1 ≤ c → c ≤ 10 →
           write_result rec ws 1 c = some (headerName c)) ∧
         (∀ c, ¬(1 ≤ c ∧ c ≤ 10) → write_result rec ws 1 c = ws 1 c))) ∧
    (∀ (ws : Worksheet) (rec : EmailRecord) (d : ContactInfo),
      rec.status = .SUCCESS → rec.data = some d → 2 ≤ rec.row →
        (write_result rec ws rec.row 2 = some "OK" ∧
         (∀ fc ∈ contactColumns,
           write_result rec ws rec.row fc.2 =
             if pyTruthy (fc.1 d) then fc.1 d else ws rec.row fc.2) ∧
         (∀ r c, r ≠ rec.row → r ≠ 1 → write_result rec ws r c = ws r c))) := by
  constructor
  · intro ws rec hst hrow
    have hns : ¬(rec.status = .SUCCESS ∧ rec.data ≠ none) := by
      rcases hst with h | h <;> simp [h]
    have hcl : rec.status = .ERROR ∨ rec.status = .NOT_FOUND := hst.symm
    simp only [write_result, if_neg hns, if_pos hcl]
    refine ⟨?_, ?_, ?_, ?_, ?_⟩
    · rw [clearContactData_at]
      rw [if_neg (by omega)]
      simp [setCell]
    · intro c h3 h10
      rw [clearContactData_at, if_pos ⟨rfl, h3, h10⟩]
    · intro r c hr h1
      rw [clearContactData_at, if_neg (fun h => hr h.1)]
      rw [setCell, if_neg (fun h => hr h.1), verifyHeaders_at,
        if_neg (fun h => h1 h.1)]
    · intro c h1 h10
      rw [clearContactData_at, if_neg (by omega)]
      rw [setCell, if_neg (by omega), verifyHeaders_at,
        if_pos ⟨rfl, h1, h10⟩]
    · intro c hc
      rw [clearContactData_at, if_neg (by omega)]
      rw [setCell, if_neg (by omega), verifyHeaders_at,
        if_neg (fun h => hc h.2)]
  · intro ws rec d hst hdata hrow
    have hps : rec.status = .SUCCESS ∧ rec.data ≠ none := by
      simp [hst, hdata]
    have hget : rec.data.getD {} = d := by rw [hdata]; rfl
    simp only [write_result, if_pos hps, hget]
    refine ⟨?_, ?_, ?_⟩
    · rw [writeContactData_statuscol _ _ _ _ (by omega)]
      rw [setCell, if_pos ⟨rfl, rfl⟩, hst]
      rfl
    · intro fc hfc
      rw [writeContactData_col _ _ _ fc hfc]
      have hcol : 3 ≤ fc.2 ∧ fc.2 ≤ 10 := by
        simp only [contactColumns, List.mem_cons, List.not_mem_nil,
          or_false] at hfc
        rcases hfc with rfl | rfl | rfl | rfl | rfl | rfl | rfl | rfl <;> omega
      have hws2 : setCell (verifyHeaders ws) rec.row 2
          (some rec.status.value) rec.row fc.2 = ws rec.row fc.2 := by
        rw [setCell, if_neg (by omega), verifyHeaders_at, if_neg (by omega)]
      rw [hws2]
    · intro r c hr h1
      rw [writeContactData_other _ _ _ _ _ hr]
      rw [setCell, if_neg (fun h => hr h.1), verifyHeaders_at,
        if_neg (fun h => h1 h.1)]
